import Mathlib

/-!
Verification of the claude-code-bridge protocol server.

Shallow embedding of the WebSocket frame codec, the upgrade/auth gate with
its connection registry, the per-connection read handler, and the MCP
message dispatcher, translated from src/websocket.ts and the MCPHandler
(src/unnamed/part_003).  Byte buffers are modelled as List Nat (each entry
one byte), JS strings that carry payload data as their byte sequences, and
socket effects as explicit action lists.
-/

namespace ClaudeCodeBridge

/-! ### Resource-limit constants (src/unnamed/part_003, lines 128-131) -/

def MAX_CONNECTIONS : Nat := 10

def MAX_BUFFER_SIZE : Nat := 1024 * 1024

def MAX_MESSAGE_SIZE : Nat := 10 * 1024 * 1024

/-! ### Big-endian byte helpers (Buffer read/write calls in websocket.ts) -/

/-- Buffer.readUInt16BE on two bytes. -/
def readUInt16BE (b2 b3 : Nat) : Nat := b2 * 256 + b3

/-- Buffer.readBigUInt64BE on a list of 8 bytes, big-endian fold. -/
def readUInt64BE (bs : List Nat) : Nat := bs.foldl (fun acc b => acc * 256 + b) 0

/-- Buffer.writeUInt16BE: big-endian bytes of a value below 2^16. -/
def writeUInt16BE (n : Nat) : List Nat := [n / 256 % 256, n % 256]

/-- Buffer.writeBigUInt64BE: the 8 big-endian bytes of a value below 2^64. -/
def writeUInt64BE (n : Nat) : List Nat :=
  [n / 72057594037927936 % 256, n / 281474976710656 % 256,
   n / 1099511627776 % 256, n / 4294967296 % 256,
   n / 16777216 % 256, n / 65536 % 256, n / 256 % 256, n % 256]

/-! ### Bitmask facts for header bytes

The decoder reads the opcode and length fields with bitwise-and masks; on
bytes (values below 256) these coincide with division and remainder. -/

set_option maxRecDepth 8192 in
theorem byte_and_facts :
    ∀ b < 256, b &&& 15 = b % 16 ∧ b &&& 127 = b % 128 ∧ b &&& 128 = 128 * (b / 128) := by
  decide

theorem and127_of_lt {n : Nat} (h : n < 128) : n &&& 127 = n := by
  have := (byte_and_facts n (by omega)).2.1
  omega

theorem and128_of_lt {n : Nat} (h : n < 128) : (n &&& 128 == 128) = false := by
  have := (byte_and_facts n (by omega)).2.2
  simp only [beq_eq_false_iff_ne, ne_eq]
  omega

theorem and127_of_add128 {n : Nat} (h : n < 128) : (128 + n) &&& 127 = n := by
  have := (byte_and_facts (128 + n) (by omega)).2.1
  omega

theorem and128_of_add128 {n : Nat} (h : n < 128) : ((128 + n) &&& 128 == 128) = true := by
  have := (byte_and_facts (128 + n) (by omega)).2.2
  simp only [beq_iff_eq]
  omega

/-! ### Frame decoding (parseWebSocketFrames, src/websocket.ts lines 171-241)

The while-loop body reads a frame header at the current offset; every
`break` in the source corresponds to `none` here.  All offsets are taken
relative to the current cursor, which is equivalent to the absolute
offsets of the source because every access is cursor-relative. -/

/-- Extended-payload-length logic: from the low 7 bits of byte 1, produce
the payload length and the payload offset (relative to the frame start),
or none when the buffer ends inside the extended length field. -/
def readLen (buf : List Nat) (baseLen : Nat) : Option (Nat × Nat) :=
  if baseLen = 126 then
    if buf.length < 4 then none
    else some (readUInt16BE (buf.getD 2 0) (buf.getD 3 0), 4)
  else if baseLen = 127 then
    if buf.length < 10 then none
    else some (readUInt64BE ((buf.drop 2).take 8), 10)
  else some (baseLen, 2)

/-- Mask-key logic: when the mask bit is set, consume 4 key bytes, or
none when the buffer ends inside the key. -/
def readMask (buf : List Nat) (masked : Bool) (off : Nat) :
    Option (Nat × Option (List Nat)) :=
  if masked then
    if buf.length < off + 4 then none
    else some (off + 4, some ((buf.drop off).take 4))
  else some (off, none)

/-- One iteration of the frame-parsing loop: header checks in source order
(2 header bytes, extended length, mask key, full payload fit).  Returns
(opcode, payload offset, payload length, mask key), or none on any break. -/
def parseFrameStep (buf : List Nat) : Option (Nat × Nat × Nat × Option (List Nat)) :=
  if buf.length < 2 then none
  else
    (readLen buf (buf.getD 1 0 &&& 127)).bind fun p =>
      (readMask buf (buf.getD 1 0 &&& 128 == 128) p.2).bind fun q =>
        if buf.length < q.1 + p.1 then none
        else some (buf.getD 0 0 &&& 15, q.1, p.1, q.2)

theorem readLen_bounds {buf : List Nat} {b len off1}
    (h : readLen buf b = some (len, off1)) : 2 ≤ off1 := by
  unfold readLen at h
  split at h
  · split at h
    · exact absurd h (by simp)
    · injection h with h
      injection h with _ h
      omega
  · split at h
    · split at h
      · exact absurd h (by simp)
      · injection h with h
        injection h with _ h
        omega
    · injection h with h
      injection h with _ h
      omega

theorem readMask_bounds {buf : List Nat} {m off1 off key}
    (h : readMask buf m off1 = some (off, key)) : off1 ≤ off := by
  unfold readMask at h
  split at h
  · split at h
    · exact absurd h (by simp)
    · injection h with h
      injection h with h _
      omega
  · injection h with h
    injection h with h _
    omega

theorem parseFrameStep_bounds {buf : List Nat} {op off len key}
    (h : parseFrameStep buf = some (op, off, len, key)) :
    2 ≤ off ∧ off + len ≤ buf.length := by
  unfold parseFrameStep at h
  by_cases h2 : buf.length < 2
  · simp [h2] at h
  · rw [if_neg h2] at h
    cases hL : readLen buf (buf.getD 1 0 &&& 127) with
    | none => rw [hL] at h; simp at h
    | some p =>
      rw [hL] at h
      simp only [Option.some_bind] at h
      cases hM : readMask buf (buf.getD 1 0 &&& 128 == 128) p.2 with
      | none => rw [hM] at h; simp at h
      | some q =>
        rw [hM] at h
        simp only [Option.some_bind] at h
        by_cases hfit : buf.length < q.1 + p.1
        · simp [hfit] at h
        · rw [if_neg hfit] at h
          injection h with h
          injection h with _ h
          injection h with hoff h
          injection h with hlen _
          have b1 := @readLen_bounds buf (buf.getD 1 0 &&& 127) p.1 p.2 (by rw [hL])
          have b2 := @readMask_bounds buf (buf.getD 1 0 &&& 128 == 128) p.2 q.1 q.2 (by rw [hM])
          omega

/-- XOR-unmasking loop: unmaskedPayload[i] = payload[i] ^ maskKey[i % 4],
with the running byte index threaded explicitly. -/
def unmaskFrom (key : List Nat) : Nat → List Nat → List Nat
  | _, [] => []
  | i, b :: bs => (b ^^^ key.getD (i % 4) 0) :: unmaskFrom key (i + 1) bs

/-- The payload transformation of one frame: unmask when a mask key was
present (in the source, masked and maskKey are non-null together). -/
def maybeUnmask (key : Option (List Nat)) (payload : List Nat) : List Nat :=
  match key with
  | some k => unmaskFrom k 0 payload
  | none => payload

/-- The whole parseWebSocketFrames while-loop, recursing on the buffer
suffix past each complete frame.  Text frames (opcode 1) surface their
payload; other opcodes are consumed silently. -/
def parseLoop (buf : List Nat) : List (List Nat) × List Nat :=
  match h : parseFrameStep buf with
  | none => ([], buf)
  | some (opcode, off, len, key) =>
    let payload := maybeUnmask key ((buf.drop off).take len)
    let r := parseLoop (buf.drop (off + len))
    (if opcode = 1 then payload :: r.1 else r.1, r.2)
termination_by buf.length
decreasing_by
  have hb := parseFrameStep_bounds h
  simp only [List.length_drop]
  omega

/-- parseWebSocketFrames(data, existingBuffer): concatenates the existing
buffer with the new chunk and runs the frame loop. -/
def parseWebSocketFrames (data existingBuffer : List Nat) :
    List (List Nat) × List Nat :=
  parseLoop (existingBuffer ++ data)

/-! ### Frame encoding (createWebSocketFrame, src/websocket.ts lines 256-279) -/

/-- createWebSocketFrame: an unmasked FIN+text frame (first byte 0x81)
around the UTF-8 payload bytes, with the 126/127 length escapes. -/
def createWebSocketFrame (payload : List Nat) : List Nat :=
  if payload.length < 126 then
    129 :: payload.length :: payload
  else if payload.length < 65536 then
    129 :: 126 :: (writeUInt16BE payload.length ++ payload)
  else
    129 :: 127 :: (writeUInt64BE payload.length ++ payload)

theorem parseLoop_none {buf : List Nat} (h : parseFrameStep buf = none) :
    parseLoop buf = ([], buf) := by
  rw [parseLoop]
  split
  · rfl
  · rename_i heq
    rw [h] at heq
    exact absurd heq (by simp)

theorem parseLoop_some {buf : List Nat} {op off len key}
    (h : parseFrameStep buf = some (op, off, len, key)) :
    parseLoop buf =
      (if op = 1 then
        maybeUnmask key ((buf.drop off).take len) :: (parseLoop (buf.drop (off + len))).1
      else (parseLoop (buf.drop (off + len))).1,
       (parseLoop (buf.drop (off + len))).2) := by
  rw [parseLoop]
  split
  · rename_i heq
    rw [h] at heq
    exact absurd heq (by simp)
  · rename_i op' off' len' key' heq
    rw [h] at heq
    injection heq with heq
    injection heq with h1 heq
    injection heq with h2 heq
    injection heq with h3 h4
    subst h1 h2 h3 h4
    rfl

/-! ### Generic wire frames

To quantify over "every complete frame in the decode input" (the decoder
accepts any opcode, any mask bit, and any of the three length encodings
that fits the payload), frames are described by this record and laid out
by serializeRawFrame exactly as the decoder walks them. -/

inductive LenEnc
  | direct
  | ext16
  | ext64

structure RawFrame where
  b0 : Nat
  lenEnc : LenEnc
  maskKey : Option (List Nat)
  payload : List Nat

/-- The low-7-bit length indicator of header byte 1. -/
def lenIndicator (f : RawFrame) : Nat :=
  match f.lenEnc with
  | .direct => f.payload.length
  | .ext16 => 126
  | .ext64 => 127

/-- The extended-length bytes following the 2-byte header. -/
def lenExtBytes (f : RawFrame) : List Nat :=
  match f.lenEnc with
  | .direct => []
  | .ext16 => writeUInt16BE f.payload.length
  | .ext64 => writeUInt64BE f.payload.length

/-- The 4 mask-key bytes, when the frame is masked. -/
def maskBytes (f : RawFrame) : List Nat :=
  match f.maskKey with
  | some k => k
  | none => []

/-- Header byte 1: mask bit plus length indicator (mask bit 0x80 set
exactly when a mask key is present). -/
def secondByteOf (f : RawFrame) : Nat :=
  match f.maskKey with
  | some _ => 128 + lenIndicator f
  | none => lenIndicator f

/-- Byte layout of a frame: header, extended length, mask key, payload. -/
def serializeRawFrame (f : RawFrame) : List Nat :=
  f.b0 :: secondByteOf f :: (lenExtBytes f ++ (maskBytes f ++ f.payload))

/-- The payload offset the decoder computes for this frame. -/
def headerLen (f : RawFrame) : Nat :=
  2 + (lenExtBytes f).length + (maskBytes f).length

/-- Payload-length ceiling of each length encoding. -/
def lenCap : LenEnc -> Nat
  | .direct => 126
  | .ext16 => 65536
  | .ext64 => 18446744073709551616

/-- Mask key is exactly 4 bytes when present. -/
def maskOk (f : RawFrame) : Bool :=
  match f.maskKey with
  | some k => k.length == 4
  | none => true

/-- A frame the wire format can actually carry. -/
def RawFrame.WF (f : RawFrame) : Prop :=
  f.b0 < 256 ∧ maskOk f = true ∧ f.payload.length < lenCap f.lenEnc

theorem eq_four_of_length {α : Type} {l : List α} (h : l.length = 4) :
    ∃ a b c d, l = [a, b, c, d] := by
  rcases l with _ | ⟨a, l⟩
  · simp at h
  rcases l with _ | ⟨b, l⟩
  · simp at h
  rcases l with _ | ⟨c, l⟩
  · simp at h
  rcases l with _ | ⟨d, l⟩
  · simp at h
  rcases l with _ | ⟨e, l⟩
  · exact ⟨a, b, c, d, rfl⟩
  · simp at h

theorem parseFrameStep_direct_unmasked (b0 : Nat) (p rest : List Nat)
    (hlen : p.length < 126) :
    parseFrameStep (b0 :: p.length :: (p ++ rest)) =
      some (b0 &&& 15, 2, p.length, none) := by
  have e1 : p.length &&& 127 = p.length := and127_of_lt (by omega)
  have e2 : (p.length &&& 128 == 128) = false := and128_of_lt (by omega)
  unfold parseFrameStep readLen readMask
  simp only [List.getD_cons_succ, List.getD_cons_zero, e1, e2, List.length_cons,
    List.length_append, Option.some_bind, Bool.false_eq_true, if_false]
  rw [if_neg (by omega), if_neg (by omega), if_neg (by omega)]
  simp only [Option.some_bind]
  rw [if_neg (by omega)]

theorem parseFrameStep_direct_masked (b0 k0 k1 k2 k3 : Nat) (p rest : List Nat)
    (hlen : p.length < 126) :
    parseFrameStep (b0 :: (128 + p.length) :: k0 :: k1 :: k2 :: k3 :: (p ++ rest)) =
      some (b0 &&& 15, 6, p.length, some [k0, k1, k2, k3]) := by
  have e1 : (128 + p.length) &&& 127 = p.length := and127_of_add128 (by omega)
  have e2 : ((128 + p.length) &&& 128 == 128) = true := and128_of_add128 (by omega)
  unfold parseFrameStep readLen readMask
  simp only [List.getD_cons_succ, List.getD_cons_zero, e1, e2, List.length_cons,
    List.length_append, Option.some_bind, if_true]
  rw [if_neg (by omega), if_neg (by omega), if_neg (by omega)]
  simp only [Option.some_bind]
  rw [if_neg (by omega)]
  simp only [Option.some_bind]
  rw [if_neg (by omega)]
  simp [List.drop, List.take]

theorem parseFrameStep_ext16_unmasked (b0 : Nat) (p rest : List Nat)
    (hlen : p.length < 65536) :
    parseFrameStep (b0 :: 126 :: (p.length / 256 % 256) :: (p.length % 256) :: (p ++ rest)) =
      some (b0 &&& 15, 4, p.length, none) := by
  have e1 : (126 : Nat) &&& 127 = 126 := by decide
  have e2 : ((126 : Nat) &&& 128 == 128) = false := by decide
  have hv : readUInt16BE (p.length / 256 % 256) (p.length % 256) = p.length := by
    simp only [readUInt16BE]
    omega
  unfold parseFrameStep readLen readMask
  simp only [List.getD_cons_succ, List.getD_cons_zero, e1, e2, List.length_cons,
    List.length_append, Option.some_bind, Bool.false_eq_true, if_false, if_true, hv]
  rw [if_neg (by omega), if_neg (by omega)]
  simp only [Option.some_bind]
  rw [if_neg (by omega)]

theorem parseFrameStep_ext16_masked (b0 k0 k1 k2 k3 : Nat) (p rest : List Nat)
    (hlen : p.length < 65536) :
    parseFrameStep (b0 :: 254 :: (p.length / 256 % 256) :: (p.length % 256)
      :: k0 :: k1 :: k2 :: k3 :: (p ++ rest)) =
      some (b0 &&& 15, 8, p.length, some [k0, k1, k2, k3]) := by
  have e1 : (254 : Nat) &&& 127 = 126 := by decide
  have e2 : ((254 : Nat) &&& 128 == 128) = true := by decide
  have hv : readUInt16BE (p.length / 256 % 256) (p.length % 256) = p.length := by
    simp only [readUInt16BE]
    omega
  unfold parseFrameStep readLen readMask
  simp only [List.getD_cons_succ, List.getD_cons_zero, e1, e2, List.length_cons,
    List.length_append, Option.some_bind, if_true, hv]
  rw [if_neg (by omega), if_neg (by omega)]
  simp only [Option.some_bind]
  rw [if_neg (by omega)]
  simp only [Option.some_bind]
  rw [if_neg (by omega)]
  simp [List.drop, List.take]

theorem parseFrameStep_ext64_unmasked (b0 : Nat) (p rest : List Nat)
    (hlen : p.length < 18446744073709551616) :
    parseFrameStep (b0 :: 127 :: (p.length / 72057594037927936 % 256)
      :: (p.length / 281474976710656 % 256) :: (p.length / 1099511627776 % 256)
      :: (p.length / 4294967296 % 256) :: (p.length / 16777216 % 256)
      :: (p.length / 65536 % 256) :: (p.length / 256 % 256) :: (p.length % 256)
      :: (p ++ rest)) = some (b0 &&& 15, 10, p.length, none) := by
  have e1 : (127 : Nat) &&& 127 = 127 := by decide
  have e2 : ((127 : Nat) &&& 128 == 128) = false := by decide
  unfold parseFrameStep readLen readMask
  simp only [List.getD_cons_succ, List.getD_cons_zero, e1, e2, List.length_cons,
    List.length_append, Option.some_bind, Bool.false_eq_true, if_false, if_true]
  rw [if_neg (by omega), if_neg (by omega), if_neg (by omega)]
  simp only [Option.some_bind]
  have hv : readUInt64BE (List.take 8 (List.drop 2 (b0 :: 127
      :: (p.length / 72057594037927936 % 256)
      :: (p.length / 281474976710656 % 256) :: (p.length / 1099511627776 % 256)
      :: (p.length / 4294967296 % 256) :: (p.length / 16777216 % 256)
      :: (p.length / 65536 % 256) :: (p.length / 256 % 256) :: (p.length % 256)
      :: (p ++ rest)))) = p.length := by
    have hred : List.take 8 (List.drop 2 (b0 :: 127
        :: (p.length / 72057594037927936 % 256)
        :: (p.length / 281474976710656 % 256) :: (p.length / 1099511627776 % 256)
        :: (p.length / 4294967296 % 256) :: (p.length / 16777216 % 256)
        :: (p.length / 65536 % 256) :: (p.length / 256 % 256) :: (p.length % 256)
        :: (p ++ rest))) = [p.length / 72057594037927936 % 256,
        p.length / 281474976710656 % 256, p.length / 1099511627776 % 256,
        p.length / 4294967296 % 256, p.length / 16777216 % 256,
        p.length / 65536 % 256, p.length / 256 % 256, p.length % 256] := rfl
    rw [hred]
    simp only [readUInt64BE, List.foldl]
    omega
  rw [hv]
  rw [if_neg (by omega)]

theorem parseFrameStep_ext64_masked (b0 k0 k1 k2 k3 : Nat) (p rest : List Nat)
    (hlen : p.length < 18446744073709551616) :
    parseFrameStep (b0 :: 255 :: (p.length / 72057594037927936 % 256)
      :: (p.length / 281474976710656 % 256) :: (p.length / 1099511627776 % 256)
      :: (p.length / 4294967296 % 256) :: (p.length / 16777216 % 256)
      :: (p.length / 65536 % 256) :: (p.length / 256 % 256) :: (p.length % 256)
      :: k0 :: k1 :: k2 :: k3 :: (p ++ rest)) =
      some (b0 &&& 15, 14, p.length, some [k0, k1, k2, k3]) := by
  have e1 : (255 : Nat) &&& 127 = 127 := by decide
  have e2 : ((255 : Nat) &&& 128 == 128) = true := by decide
  unfold parseFrameStep readLen readMask
  simp only [List.getD_cons_succ, List.getD_cons_zero, e1, e2, List.length_cons,
    List.length_append, Option.some_bind, if_true]
  rw [if_neg (by omega), if_neg (by omega), if_neg (by omega)]
  simp only [Option.some_bind]
  have hv : readUInt64BE (List.take 8 (List.drop 2 (b0 :: 255
      :: (p.length / 72057594037927936 % 256)
      :: (p.length / 281474976710656 % 256) :: (p.length / 1099511627776 % 256)
      :: (p.length / 4294967296 % 256) :: (p.length / 16777216 % 256)
      :: (p.length / 65536 % 256) :: (p.length / 256 % 256) :: (p.length % 256)
      :: k0 :: k1 :: k2 :: k3 :: (p ++ rest)))) = p.length := by
    have hred : List.take 8 (List.drop 2 (b0 :: 255
        :: (p.length / 72057594037927936 % 256)
        :: (p.length / 281474976710656 % 256) :: (p.length / 1099511627776 % 256)
        :: (p.length / 4294967296 % 256) :: (p.length / 16777216 % 256)
        :: (p.length / 65536 % 256) :: (p.length / 256 % 256) :: (p.length % 256)
        :: k0 :: k1 :: k2 :: k3 :: (p ++ rest))) = [p.length / 72057594037927936 % 256,
        p.length / 281474976710656 % 256, p.length / 1099511627776 % 256,
        p.length / 4294967296 % 256, p.length / 16777216 % 256,
        p.length / 65536 % 256, p.length / 256 % 256, p.length % 256] := rfl
    rw [hred]
    simp only [readUInt64BE, List.foldl]
    omega
  rw [hv]
  rw [if_neg (by omega)]
  simp only [Option.some_bind]
  rw [if_neg (by omega)]
  simp [List.drop, List.take]

/-- Decoding one serialized frame at the head of the buffer recovers its
opcode, payload offset, payload length and mask key. -/
theorem parseFrameStep_serialize (f : RawFrame) (hf : f.WF) (rest : List Nat) :
    parseFrameStep (serializeRawFrame f ++ rest) =
      some (f.b0 &&& 15, headerLen f, f.payload.length, f.maskKey) := by
  obtain ⟨b0, enc, mk, p⟩ := f
  obtain ⟨hb0, hmk, hlen⟩ := hf
  cases enc <;> rcases mk with _ | k
  case direct.none =>
    exact parseFrameStep_direct_unmasked b0 p rest hlen
  case direct.some =>
    obtain ⟨k0, k1, k2, k3, rfl⟩ := eq_four_of_length (by simpa [maskOk] using hmk)
    exact parseFrameStep_direct_masked b0 k0 k1 k2 k3 p rest hlen
  case ext16.none =>
    exact parseFrameStep_ext16_unmasked b0 p rest hlen
  case ext16.some =>
    obtain ⟨k0, k1, k2, k3, rfl⟩ := eq_four_of_length (by simpa [maskOk] using hmk)
    exact parseFrameStep_ext16_masked b0 k0 k1 k2 k3 p rest hlen
  case ext64.none =>
    exact parseFrameStep_ext64_unmasked b0 p rest hlen
  case ext64.some =>
    obtain ⟨k0, k1, k2, k3, rfl⟩ := eq_four_of_length (by simpa [maskOk] using hmk)
    exact parseFrameStep_ext64_masked b0 k0 k1 k2 k3 p rest hlen

theorem drop_cons2 {α : Type} (a b : α) (T : List α) (n : Nat) :
    (a :: b :: T).drop (n + 2) = T.drop n := rfl

theorem drop_headerLen (f : RawFrame) (rest : List Nat) :
    (serializeRawFrame f ++ rest).drop (headerLen f) = f.payload ++ rest := by
  have h1 : serializeRawFrame f ++ rest
      = f.b0 :: secondByteOf f :: (lenExtBytes f ++ (maskBytes f ++ (f.payload ++ rest))) := by
    simp [serializeRawFrame]
  rw [h1]
  unfold headerLen
  rw [show 2 + (lenExtBytes f).length + (maskBytes f).length
      = ((lenExtBytes f).length + (maskBytes f).length) + 2 from by omega]
  rw [drop_cons2]
  rw [← List.length_append, ← List.append_assoc, List.drop_left]

theorem take_payload (f : RawFrame) (rest : List Nat) :
    ((serializeRawFrame f ++ rest).drop (headerLen f)).take f.payload.length = f.payload := by
  rw [drop_headerLen, List.take_left]

theorem drop_frame (f : RawFrame) (rest : List Nat) :
    (serializeRawFrame f ++ rest).drop (headerLen f + f.payload.length) = rest := by
  rw [← List.drop_drop, drop_headerLen, List.drop_left]

/-- Decoding a buffer that starts with one complete serialized frame:
the frame is consumed whole; its (unmasked) payload is surfaced exactly
when the opcode is 1 (text). -/
theorem parseLoop_serialize (f : RawFrame) (hf : f.WF) (rest : List Nat) :
    parseLoop (serializeRawFrame f ++ rest) =
      (if f.b0 &&& 15 = 1 then
        maybeUnmask f.maskKey f.payload :: (parseLoop rest).1
      else (parseLoop rest).1, (parseLoop rest).2) := by
  rw [parseLoop_some (parseFrameStep_serialize f hf rest), take_payload, drop_frame]

/-! ### createWebSocketFrame as a RawFrame -/

/-- The frame createWebSocketFrame builds: first byte 0x81 (FIN + text),
no mask, length encoding chosen by the 126/65536 thresholds. -/
def encFrameOf (p : List Nat) : RawFrame :=
  ⟨129, if p.length < 126 then .direct else if p.length < 65536 then .ext16 else .ext64,
   none, p⟩

theorem createWebSocketFrame_eq (p : List Nat) :
    createWebSocketFrame p = serializeRawFrame (encFrameOf p) := by
  unfold createWebSocketFrame encFrameOf serializeRawFrame secondByteOf lenIndicator
    lenExtBytes maskBytes
  by_cases h1 : p.length < 126
  · simp [h1]
  · by_cases h2 : p.length < 65536
    · simp [h1, h2]
    · simp [h1, h2]

theorem encFrameOf_WF (p : List Nat) (h64 : p.length < 18446744073709551616) :
    (encFrameOf p).WF := by
  unfold RawFrame.WF encFrameOf maskOk lenCap
  by_cases h1 : p.length < 126
  · simp [h1]
  · by_cases h2 : p.length < 65536
    · simp [h1, h2]
    · simp [h1, h2]
      omega

/-- Decoding a buffer that starts with one encoded text frame surfaces its
payload and continues on the remaining bytes. -/
theorem parseLoop_create (p rest : List Nat) (h64 : p.length < 18446744073709551616) :
    parseLoop (createWebSocketFrame p ++ rest) =
      (p :: (parseLoop rest).1, (parseLoop rest).2) := by
  rw [createWebSocketFrame_eq]
  rw [parseLoop_serialize (encFrameOf p) (encFrameOf_WF p h64) rest]
  have hop : (129 : Nat) &&& 15 = 1 := by decide
  simp [encFrameOf, maybeUnmask, hop]

theorem parseLoop_nil : parseLoop [] = ([], []) := by
  rw [parseLoop_none]
  unfold parseFrameStep
  simp

/-- A proper prefix of one encoded frame never contains a complete frame:
every header/length/fit check that applies fails inside the prefix. -/
theorem parseFrameStep_take_create (p : List Nat) (h64 : p.length < 18446744073709551616)
    (k : Nat) (hk : k < (createWebSocketFrame p).length) :
    parseFrameStep ((createWebSocketFrame p).take k) = none := by
  by_cases hk2 : k < 2
  · unfold parseFrameStep
    rw [if_pos]
    simp only [List.length_take]
    omega
  obtain ⟨k2, rfl⟩ : ∃ k2, k = k2 + 2 := ⟨k - 2, by omega⟩
  unfold createWebSocketFrame at hk ⊢
  by_cases h1 : p.length < 126
  · rw [if_pos h1] at hk ⊢
    simp only [List.length_cons] at hk
    have hsh : (129 :: p.length :: p).take (k2 + 2) = 129 :: p.length :: p.take k2 := rfl
    rw [hsh]
    have e1 : p.length &&& 127 = p.length := and127_of_lt (by omega)
    have e2 : (p.length &&& 128 == 128) = false := and128_of_lt (by omega)
    unfold parseFrameStep readLen readMask
    simp only [List.getD_cons_succ, List.getD_cons_zero, e1, e2, List.length_cons,
      List.length_take, Option.some_bind, Bool.false_eq_true, if_false]
    rw [if_neg (by omega), if_neg (by omega), if_neg (by omega)]
    simp only [Option.some_bind]
    rw [if_pos (by omega)]
  · rw [if_neg h1] at hk ⊢
    by_cases h2 : p.length < 65536
    · rw [if_pos h2] at hk ⊢
      simp only [writeUInt16BE, List.cons_append, List.nil_append, List.length_cons] at hk ⊢
      have e1 : (126 : Nat) &&& 127 = 126 := by decide
      have e2 : ((126 : Nat) &&& 128 == 128) = false := by decide
      by_cases hk4 : k2 < 2
      · have hsh : (129 :: 126 :: (p.length / 256 % 256) :: (p.length % 256) :: p).take (k2 + 2)
            = 129 :: 126 :: (((p.length / 256 % 256) :: (p.length % 256) :: p).take k2) := rfl
        rw [hsh]
        unfold parseFrameStep readLen
        simp only [List.getD_cons_succ, List.getD_cons_zero, e1, List.length_cons,
          List.length_take, if_true]
        rw [if_neg (by omega), if_pos (by omega)]
        simp only [Option.none_bind]
      · obtain ⟨k3, rfl⟩ : ∃ k3, k2 = k3 + 2 := ⟨k2 - 2, by omega⟩
        have hsh : (129 :: 126 :: (p.length / 256 % 256) :: (p.length % 256) :: p).take (k3 + 2 + 2)
            = 129 :: 126 :: (p.length / 256 % 256) :: (p.length % 256) :: p.take k3 := rfl
        rw [hsh]
        have hv : readUInt16BE (p.length / 256 % 256) (p.length % 256) = p.length := by
          simp only [readUInt16BE]
          omega
        unfold parseFrameStep readLen readMask
        simp only [List.getD_cons_succ, List.getD_cons_zero, e1, e2, hv, List.length_cons,
          List.length_take, Option.some_bind, Bool.false_eq_true, if_false, if_true]
        rw [if_neg (by omega), if_neg (by omega)]
        simp only [Option.some_bind]
        rw [if_pos (by omega)]
    · rw [if_neg h2] at hk ⊢
      simp only [writeUInt64BE, List.cons_append, List.nil_append, List.length_cons] at hk ⊢
      have e1 : (127 : Nat) &&& 127 = 127 := by decide
      have e2 : ((127 : Nat) &&& 128 == 128) = false := by decide
      by_cases hk8 : k2 < 8
      · have hsh : (129 :: 127 :: (p.length / 72057594037927936 % 256)
            :: (p.length / 281474976710656 % 256) :: (p.length / 1099511627776 % 256)
            :: (p.length / 4294967296 % 256) :: (p.length / 16777216 % 256)
            :: (p.length / 65536 % 256) :: (p.length / 256 % 256) :: (p.length % 256)
            :: p).take (k2 + 2)
            = 129 :: 127 :: (((p.length / 72057594037927936 % 256)
            :: (p.length / 281474976710656 % 256) :: (p.length / 1099511627776 % 256)
            :: (p.length / 4294967296 % 256) :: (p.length / 16777216 % 256)
            :: (p.length / 65536 % 256) :: (p.length / 256 % 256) :: (p.length % 256)
            :: p).take k2) := rfl
        rw [hsh]
        unfold parseFrameStep readLen
        simp only [List.getD_cons_succ, List.getD_cons_zero, e1, List.length_cons,
          List.length_take, if_true]
        rw [if_neg (by omega), if_neg (by omega), if_pos (by omega)]
        simp only [Option.none_bind]
      · obtain ⟨k3, rfl⟩ : ∃ k3, k2 = k3 + 8 := ⟨k2 - 8, by omega⟩
        have hsh : (129 :: 127 :: (p.length / 72057594037927936 % 256)
            :: (p.length / 281474976710656 % 256) :: (p.length / 1099511627776 % 256)
            :: (p.length / 4294967296 % 256) :: (p.length / 16777216 % 256)
            :: (p.length / 65536 % 256) :: (p.length / 256 % 256) :: (p.length % 256)
            :: p).take (k3 + 8 + 2)
            = 129 :: 127 :: (p.length / 72057594037927936 % 256)
            :: (p.length / 281474976710656 % 256) :: (p.length / 1099511627776 % 256)
            :: (p.length / 4294967296 % 256) :: (p.length / 16777216 % 256)
            :: (p.length / 65536 % 256) :: (p.length / 256 % 256) :: (p.length % 256)
            :: p.take k3 := rfl
        rw [hsh]
        unfold parseFrameStep readLen readMask
        simp only [List.getD_cons_succ, List.getD_cons_zero, e1, e2, List.length_cons,
          List.length_take, Option.some_bind, Bool.false_eq_true, if_false, if_true]
        rw [if_neg (by omega), if_neg (by omega), if_neg (by omega)]
        simp only [Option.some_bind]
        have hv : readUInt64BE (List.take 8 (List.drop 2 (129 :: 127
            :: (p.length / 72057594037927936 % 256)
            :: (p.length / 281474976710656 % 256) :: (p.length / 1099511627776 % 256)
            :: (p.length / 4294967296 % 256) :: (p.length / 16777216 % 256)
            :: (p.length / 65536 % 256) :: (p.length / 256 % 256) :: (p.length % 256)
            :: p.take k3))) = p.length := by
          have hred : List.take 8 (List.drop 2 (129 :: 127
              :: (p.length / 72057594037927936 % 256)
              :: (p.length / 281474976710656 % 256) :: (p.length / 1099511627776 % 256)
              :: (p.length / 4294967296 % 256) :: (p.length / 16777216 % 256)
              :: (p.length / 65536 % 256) :: (p.length / 256 % 256) :: (p.length % 256)
              :: p.take k3)) = [p.length / 72057594037927936 % 256,
              p.length / 281474976710656 % 256, p.length / 1099511627776 % 256,
              p.length / 4294967296 % 256, p.length / 16777216 % 256,
              p.length / 65536 % 256, p.length / 256 % 256, p.length % 256] := rfl
          rw [hred]
          simp only [readUInt64BE, List.foldl]
          omega
        rw [hv]
        rw [if_pos (by omega)]

/-- Feeding any proper prefix of an encoded frame to the parser consumes
nothing: no payloads, and the prefix is kept whole as the remainder. -/
theorem parseLoop_take_create (p : List Nat) (h64 : p.length < 18446744073709551616)
    (k : Nat) (hk : k < (createWebSocketFrame p).length) :
    parseLoop ((createWebSocketFrame p).take k) = ([], (createWebSocketFrame p).take k) :=
  parseLoop_none (parseFrameStep_take_create p h64 k hk)

/-! ### Byte provenance of decoded payloads

Each surfaced payload is read from one region (start, length, mask key)
of the combined input buffer; regions are in order and pairwise disjoint,
and the remainder is the suffix after the last consumed byte. -/

/-- In-order, pairwise-disjoint regions inside the byte range [lo, hi). -/
def RegionsOk : Nat → Nat → List (Nat × Nat × Option (List Nat)) → Prop
  | _, _, [] => True
  | lo, hi, r :: rs => lo ≤ r.1 ∧ r.1 + r.2.1 ≤ hi ∧ RegionsOk (r.1 + r.2.1) hi rs

/-- The payload a region denotes: its bytes, unmasked with its key. -/
def regionPayload (buf : List Nat) (r : Nat × Nat × Option (List Nat)) : List Nat :=
  maybeUnmask r.2.2 ((buf.drop r.1).take r.2.1)

theorem RegionsOk_mono {hi hi' : Nat} : ∀ {lo : Nat} {rs}, RegionsOk lo hi rs → hi ≤ hi' →
    RegionsOk lo hi' rs := by
  intro lo rs
  induction rs generalizing lo with
  | nil => intro _ _; trivial
  | cons r rs ih =>
    intro h hle
    obtain ⟨h1, h2, h3⟩ := h
    exact ⟨h1, by omega, ih h3 hle⟩

theorem RegionsOk_shift (a : Nat) : ∀ {lo hi : Nat} {rs}, RegionsOk lo hi rs →
    RegionsOk (a + lo) (a + hi) (rs.map (fun r => (a + r.1, r.2))) := by
  intro lo hi rs
  induction rs generalizing lo with
  | nil => intro _; trivial
  | cons r rs ih =>
    intro h
    obtain ⟨h1, h2, h3⟩ := h
    simp only [List.map_cons, RegionsOk]
    refine ⟨by omega, by omega, ?_⟩
    rw [show a + r.1 + r.2.1 = a + (r.1 + r.2.1) from by omega]
    exact ih h3

theorem drop_drop_add {α : Type} (l : List α) (a b : Nat) :
    (l.drop a).drop b = l.drop (a + b) := by
  rw [List.drop_drop, Nat.add_comm]

theorem RegionsOk_le {lo' lo hi : Nat} {rs} (h : RegionsOk lo hi rs) (hle : lo' ≤ lo) :
    RegionsOk lo' hi rs := by
  cases rs with
  | nil => trivial
  | cons r rs =>
    obtain ⟨h1, h2, h3⟩ := h
    exact ⟨by omega, h2, h3⟩

theorem regionPayload_shift (buf : List Nat) (a : Nat) (r : Nat × Nat × Option (List Nat)) :
    regionPayload (buf.drop a) r = regionPayload buf (a + r.1, r.2) := by
  unfold regionPayload
  rw [drop_drop_add]

/-- Every parse run consumes an in-order list of disjoint frame regions:
the remainder is the suffix from byte n on, and each surfaced payload is
the (unmasked) content of one region below n. -/
theorem parseLoop_regions_aux : ∀ (N : Nat) (buf : List Nat), buf.length ≤ N →
    ∃ n regs, n ≤ buf.length ∧ (parseLoop buf).2 = buf.drop n ∧ RegionsOk 0 n regs ∧
      (parseLoop buf).1 = regs.map (regionPayload buf) := by
  intro N
  induction N with
  | zero =>
    intro buf hb
    have hnil : buf = [] := List.length_eq_zero.mp (by omega)
    subst hnil
    exact ⟨0, [], by omega, by simp [parseLoop_nil], trivial, by simp [parseLoop_nil]⟩
  | succ N ih =>
    intro buf hb
    cases hstep : parseFrameStep buf with
    | none =>
      exact ⟨0, [], by omega, by rw [parseLoop_none hstep]; simp, trivial,
        by rw [parseLoop_none hstep]; simp⟩
    | some t =>
      obtain ⟨op, off, len, key⟩ := t
      have hb2 := parseFrameStep_bounds hstep
      obtain ⟨m, regs, hm, hrem, hok, hmsgs⟩ :=
        ih (buf.drop (off + len)) (by simp only [List.length_drop]; omega)
      simp only [List.length_drop] at hm
      rw [parseLoop_some hstep]
      have hshift := RegionsOk_shift (off + len) hok
      simp only [Nat.add_zero] at hshift
      have hrem2 : (parseLoop (buf.drop (off + len))).2 = buf.drop ((off + len) + m) := by
        rw [hrem, drop_drop_add]
      have htail : regs.map (regionPayload (buf.drop (off + len)))
          = (regs.map (fun r => ((off + len) + r.1, r.2))).map (regionPayload buf) := by
        rw [List.map_map]
        refine List.map_congr_left ?_
        intro r _
        simp only [Function.comp_apply]
        exact regionPayload_shift buf (off + len) r
      by_cases hop : op = 1
      · refine ⟨(off + len) + m,
          (off, len, key) :: regs.map (fun r => ((off + len) + r.1, r.2)),
          by omega, hrem2, ?_, ?_⟩
        · exact ⟨Nat.zero_le _, by show off + len ≤ off + len + m; omega, hshift⟩
        · show (if op = 1 then _ :: _ else _) = _
          rw [if_pos hop, List.map_cons, hmsgs, htail]
          rfl
      · refine ⟨(off + len) + m,
          regs.map (fun r => ((off + len) + r.1, r.2)),
          by omega, hrem2, RegionsOk_le hshift (by omega), ?_⟩
        show (if op = 1 then _ :: _ else _) = _
        rw [if_neg hop, hmsgs, htail]

/-! ### Upgrade gate and connection registry
(handleWebSocketUpgrade / connection events, src/unnamed/part_003
lines 208-341; sockets are abstract ids, the sha1/base64 accept-key
computation is an abstract function parameter) -/

structure UpgradeReq where
  secWebSocketKey : Option String
  authHeader : Option String

structure ServerState where
  connections : List Nat
  authToken : String
deriving DecidableEq

/-- JS truthiness of a header value: absent or empty is falsy. -/
def headerTruthy : Option String → Bool
  | some s => s != ""
  | none => false

/-- The HTTP responses the upgrade handler can write, with their exact
bodies kept in renderResponse. -/
inductive HttpResponse
  | badRequest
  | unauthorizedMissing
  | unauthorizedInvalid
  | serviceUnavailable
  | switchingProtocols (acceptKey : String)
deriving DecidableEq

def renderResponse : HttpResponse → String
  | .badRequest => "HTTP/1.1 400 Bad Request\r\n\r\n"
  | .unauthorizedMissing =>
      "HTTP/1.1 401 Unauthorized\r\nContent-Type: text/plain\r\n\r\nMissing authentication header: x-claude-code-ide-authorization"
  | .unauthorizedInvalid =>
      "HTTP/1.1 401 Unauthorized\r\nContent-Type: text/plain\r\n\r\nInvalid authentication token"
  | .serviceUnavailable =>
      "HTTP/1.1 503 Service Unavailable\r\nContent-Type: text/plain\r\n\r\nConnection limit reached"
  | .switchingProtocols k =>
      "HTTP/1.1 101 Switching Protocols\r\nUpgrade: websocket\r\nConnection: Upgrade\r\nSec-WebSocket-Accept: "
        ++ k ++ "\r\nSec-WebSocket-Protocol: mcp\r\n\r\n"

/-- connections.add of a JS Set: no duplicates. -/
def addConnection (st : ServerState) (sock : Nat) : ServerState :=
  { st with connections :=
      if sock ∈ st.connections then st.connections else sock :: st.connections }

/-- handleWebSocketUpgrade: sec-websocket-key gate, then the two auth
gates, then the connection ceiling, then the 101 handshake and
handleConnection (which adds the socket to the set). -/
def handleWebSocketUpgrade (acceptHash : String → String) (st : ServerState)
    (req : UpgradeReq) (sock : Nat) : List HttpResponse × ServerState :=
  if headerTruthy req.secWebSocketKey = false then ([.badRequest], st)
  else if headerTruthy req.authHeader = false then ([.unauthorizedMissing], st)
  else if req.authHeader.getD "" ≠ st.authToken then ([.unauthorizedInvalid], st)
  else if MAX_CONNECTIONS ≤ st.connections.length then ([.serviceUnavailable], st)
  else ([.switchingProtocols (acceptHash (req.secWebSocketKey.getD ""))],
    addConnection st sock)

inductive ServerEvent
  | upgrade (req : UpgradeReq) (sock : Nat)
  | close (sock : Nat)
  | socketError (sock : Nat)

/-- connections.delete, fired by the close and error socket events. -/
def removeConnection (st : ServerState) (sock : Nat) : ServerState :=
  { st with connections := st.connections.filter (fun c => c != sock) }

def step (acceptHash : String → String) (st : ServerState) : ServerEvent → ServerState
  | .upgrade req sock => (handleWebSocketUpgrade acceptHash st req sock).2
  | .close sock => removeConnection st sock
  | .socketError sock => removeConnection st sock

def initialState (tok : String) : ServerState := { connections := [], authToken := tok }

/-- Server evolution: the state after a sequence of upgrade/close/error
events starting from an empty registry with credential tok. -/
def run (acceptHash : String → String) (tok : String) (evs : List ServerEvent) : ServerState :=
  evs.foldl (step acceptHash) (initialState tok)

theorem step_authToken (acceptHash : String → String) (st : ServerState) (ev : ServerEvent) :
    (step acceptHash st ev).authToken = st.authToken := by
  cases ev with
  | upgrade req sock =>
    show (handleWebSocketUpgrade acceptHash st req sock).2.authToken = st.authToken
    unfold handleWebSocketUpgrade addConnection
    split_ifs <;> rfl
  | close sock => rfl
  | socketError sock => rfl

theorem step_card_le (acceptHash : String → String) (st : ServerState) (ev : ServerEvent)
    (h : st.connections.length ≤ MAX_CONNECTIONS) :
    (step acceptHash st ev).connections.length ≤ MAX_CONNECTIONS := by
  cases ev with
  | upgrade req sock =>
    show (handleWebSocketUpgrade acceptHash st req sock).2.connections.length ≤ MAX_CONNECTIONS
    unfold handleWebSocketUpgrade addConnection
    split_ifs with h1 h2 h3 h4 h5 <;> simp_all <;> omega
  | close sock =>
    exact le_trans (List.length_filter_le _ _) h
  | socketError sock =>
    exact le_trans (List.length_filter_le _ _) h

theorem foldl_inv (acceptHash : String → String) (P : ServerState → Prop)
    (hstep : ∀ st ev, P st → P (step acceptHash st ev)) :
    ∀ (evs : List ServerEvent) (st : ServerState), P st →
      P (evs.foldl (step acceptHash) st) := by
  intro evs
  induction evs with
  | nil => intro st h; exact h
  | cons ev evs ih => intro st h; exact ih (step acceptHash st ev) (hstep st ev h)

theorem run_card_le (acceptHash : String → String) (tok : String) (evs : List ServerEvent) :
    (run acceptHash tok evs).connections.length ≤ MAX_CONNECTIONS :=
  foldl_inv acceptHash (fun st => st.connections.length ≤ MAX_CONNECTIONS)
    (step_card_le acceptHash) evs (initialState tok) (by simp [initialState, MAX_CONNECTIONS])

theorem run_authToken (acceptHash : String → String) (tok : String) (evs : List ServerEvent) :
    (run acceptHash tok evs).authToken = tok :=
  foldl_inv acceptHash (fun st => st.authToken = tok)
    (fun st ev h => by
      show (step acceptHash st ev).authToken = tok
      rw [step_authToken]
      exact h) evs (initialState tok) rfl

/-- The event was an upgrade for this socket that passed the key gate and
carried exactly the server credential. -/
def AuthedUpgrade (tok : String) (ev : ServerEvent) (s : Nat) : Prop :=
  ∃ req, ev = .upgrade req s ∧ req.authHeader = some tok ∧
    headerTruthy req.secWebSocketKey = true

theorem mem_step (acceptHash : String → String) (st : ServerState) (ev : ServerEvent)
    (s : Nat) (h : s ∈ (step acceptHash st ev).connections) :
    s ∈ st.connections ∨ AuthedUpgrade st.authToken ev s := by
  cases ev with
  | upgrade req sock =>
    replace h : s ∈ (handleWebSocketUpgrade acceptHash st req sock).2.connections := h
    unfold handleWebSocketUpgrade addConnection at h
    split_ifs at h with h1 h2 h3 h4 h5
    · exact Or.inl h
    · exact Or.inl h
    · exact Or.inl h
    · exact Or.inl h
    · exact Or.inl h
    · rcases List.mem_cons.mp h with h6 | h6
      · subst h6
        refine Or.inr ⟨req, rfl, ?_, ?_⟩
        · simp only [ne_eq, not_not] at h3
          cases hah : req.authHeader with
          | none => rw [hah] at h2; simp [headerTruthy] at h2
          | some a =>
            rw [hah] at h3
            simp only [Option.getD_some] at h3
            rw [h3]
        · simpa using h1
      · exact Or.inl h6
  | close sock =>
    exact Or.inl (List.mem_of_mem_filter h)
  | socketError sock =>
    exact Or.inl (List.mem_of_mem_filter h)

theorem run_mem_authed_aux (acceptHash : String → String) (tok : String) :
    ∀ (evs : List ServerEvent) (st : ServerState), st.authToken = tok →
      ∀ s ∈ (evs.foldl (step acceptHash) st).connections,
        s ∈ st.connections ∨ ∃ ev ∈ evs, AuthedUpgrade tok ev s := by
  intro evs
  induction evs with
  | nil => intro st _ s hs; exact Or.inl hs
  | cons ev evs ih =>
    intro st htok s hs
    rcases ih (step acceptHash st ev) (by rw [step_authToken, htok]) s hs with h | h
    · rcases mem_step acceptHash st ev s h with h' | h'
      · exact Or.inl h'
      · exact Or.inr ⟨ev, List.mem_cons_self ev evs, htok ▸ h'⟩
    · obtain ⟨ev', hev', hau⟩ := h
      exact Or.inr ⟨ev', List.mem_cons_of_mem ev hev', hau⟩

/-- Every socket in a reachable registry entered through an authenticated
upgrade event. -/
theorem run_mem_authed (acceptHash : String → String) (tok : String) (evs : List ServerEvent) :
    ∀ s ∈ (run acceptHash tok evs).connections, ∃ ev ∈ evs, AuthedUpgrade tok ev s := by
  intro s hs
  rcases run_mem_authed_aux acceptHash tok evs (initialState tok) rfl s hs with h | h
  · simp [initialState] at h
  · exact h

/-! ### MCP message dispatcher (MCPHandler.handleMessage,
src/unnamed/part_003 lines 7-121)

JSON-RPC ids are numbers, strings or null; JS truthiness decides both the
catch-clause guard (if message.id) and the params.path guard.  The vault
and the active editor view are abstract collaborator parameters. -/

inductive JsonId
  | num (n : Int)
  | str (s : String)
  | null
deriving DecidableEq

/-- JS truthiness of an id value: 0, the empty string and null are falsy. -/
def JsonId.truthy : JsonId → Bool
  | .num n => n != 0
  | .str s => s != ""
  | .null => false

def idTruthy : Option JsonId → Bool
  | some i => i.truthy
  | none => false

structure RpcError where
  code : Int
  message : String
deriving DecidableEq

/-- The result objects the handler can attach to a response. -/
inductive RpcResult
  | initResult
  | resourcesResult
  | contentResult (content : String)
  | selectionResult (selection : String) (line ch : Nat)
deriving DecidableEq

/-- A message passed to sendMessage: jsonrpc 2.0 plus id/result/error. -/
structure SentMessage where
  id : Option JsonId
  result : Option RpcResult
  error : Option RpcError
deriving DecidableEq

/-- An inbound parsed JSON-RPC message as the dispatcher reads it. -/
structure InMessage where
  method : Option String
  id : Option JsonId
  paramsPath : Option String

def methodTruthy : Option String → Bool
  | some s => s != ""
  | none => false

def pathTruthy : Option String → Bool
  | some s => s != ""
  | none => false

def methodNotFoundMsg (id : Option JsonId) : SentMessage :=
  { id := id, result := none, error := some { code := -32601, message := "Method not found" } }

def internalErrorMsg (id : Option JsonId) (msg : String) : SentMessage :=
  { id := id, result := none, error := some { code := -32603, message := msg } }

/-- handleFileRead: throws unless params.path is truthy, throws when the
vault collaborator cannot resolve a readable file, else responds with the
content. -/
def handleFileRead (vault : String → Option String) (msg : InMessage) :
    Except String SentMessage :=
  if pathTruthy msg.paramsPath = false then Except.error "File path is required"
  else
    match vault (msg.paramsPath.getD "") with
    | none => Except.error ("File not found: " ++ msg.paramsPath.getD "")
    | some content =>
      Except.ok { id := msg.id, result := some (.contentResult content), error := none }

/-- handleWorkspaceSelection: throws without an active markdown view, else
responds with selection text and cursor position. -/
def handleWorkspaceSelection (activeView : Option (String × Nat × Nat)) (msg : InMessage) :
    Except String SentMessage :=
  match activeView with
  | none => Except.error "No active markdown view"
  | some v =>
    Except.ok { id := msg.id, result := some (.selectionResult v.1 v.2.1 v.2.2), error := none }

/-- The method switch of handleMessage: the list of messages handed to
sendMessage, or the thrown error text. -/
def dispatchCore (vault : String → Option String) (activeView : Option (String × Nat × Nat))
    (msg : InMessage) : Except String (List SentMessage) :=
  if methodTruthy msg.method = false then Except.ok []
  else
    match msg.method.getD "" with
    | "initialize" =>
      Except.ok [{ id := msg.id, result := some .initResult, error := none }]
    | "initialized" => Except.ok []
    | "files/read" => (handleFileRead vault msg).map (fun m => [m])
    | "workspace/selection" => (handleWorkspaceSelection activeView msg).map (fun m => [m])
    | "resources/list" =>
      Except.ok [{ id := msg.id, result := some .resourcesResult, error := none }]
    | _ => Except.ok [methodNotFoundMsg msg.id]

/-- MCPHandler.handleMessage: the switch inside try/catch; a thrown error
becomes a -32603 response carrying the error text iff message.id is
truthy. -/
def handleMessage (vault : String → Option String) (activeView : Option (String × Nat × Nat))
    (msg : InMessage) : List SentMessage :=
  match dispatchCore vault activeView msg with
  | Except.ok sent => sent
  | Except.error e => if idTruthy msg.id then [internalErrorMsg msg.id e] else []

/-! ### Per-connection read handler (socket data callback,
src/unnamed/part_003 lines 285-328) -/

/-- What the data callback does with one decoded payload. -/
inductive ConnAction (α : Type)
  | send (m : SentMessage)
  | dispatch (m : α)
  | dropMalformed
deriving DecidableEq

/-- The -32600 response the read handler sends for oversized payloads
(no id field is attached in the source). -/
def tooLargeMessage : SentMessage :=
  { id := none, result := none, error := some { code := -32600, message := "Message too large" } }

/-- A UTF-8 continuation byte (0x80-0xBF). -/
def isCont (b : Nat) : Bool := 128 ≤ b && b < 192

/-- Decoding effect of a byte read in lead position: the UTF-16 units it
contributes now, the number of continuation bytes it expects, and whether
completing the sequence adds a second unit (4-byte sequences decode to a
surrogate pair).  ASCII and invalid lead positions contribute one unit
(the latter as a replacement character) and expect nothing. -/
def leadInfo (b : Nat) : Nat × Nat × Bool :=
  if b < 128 then (1, 0, false)
  else if b < 194 then (1, 0, false)
  else if b < 224 then (1, 1, false)
  else if b < 240 then (1, 2, false)
  else if b < 245 then (1, 3, true)
  else (1, 0, false)

/-- Byte-at-a-time scan counting UTF-16 code units: pending is the number
of continuation bytes the current sequence still expects, four whether
its completion adds the surrogate-pair unit.  A non-continuation byte
where one was expected leaves the broken sequence counted as one
replacement character and starts over at that byte. -/
def utf16Go : Nat → Bool → List Nat → Nat
  | _, _, [] => 0
  | pending, four, b :: bs =>
    if 0 < pending then
      if isCont b then
        if pending = 1 then (if four then 1 else 0) + utf16Go 0 false bs
        else utf16Go (pending - 1) four bs
      else (leadInfo b).1 + utf16Go (leadInfo b).2.1 (leadInfo b).2.2 bs
    else (leadInfo b).1 + utf16Go (leadInfo b).2.1 (leadInfo b).2.2 bs

/-- The size the read handler actually checks is messageText.length: the
UTF-16 code-unit count (JS String.prototype.length) of the string that
Buffer.toString("utf8") decodes from the payload bytes.  One unit per
code point of the Basic Multilingual Plane (1-, 2- and 3-byte UTF-8
sequences), two units — a surrogate pair — per 4-byte sequence, and one
replacement character per maximal invalid subpart.  The lead-specific
fine structure of invalid input (overlong forms, encoded surrogates) is
not distinguished; it only changes how many replacement characters
malformed byte runs decode to. -/
def utf16Length (bs : List Nat) : Nat := utf16Go 0 false bs

theorem leadInfo_ascii {b : Nat} (hb : b < 128) : leadInfo b = (1, 0, false) := by
  unfold leadInfo
  rw [if_pos hb]

theorem utf16Length_ascii_cons {b : Nat} (hb : b < 128) (bs : List Nat) :
    utf16Length (b :: bs) = 1 + utf16Length bs := by
  show utf16Go 0 false (b :: bs) = 1 + utf16Go 0 false bs
  rw [utf16Go]
  rw [if_neg (by omega), leadInfo_ascii hb]

theorem utf16Length_replicate {b : Nat} (hb : b < 128) (n : Nat) :
    utf16Length (List.replicate n b) = n := by
  induction n with
  | zero => rfl
  | succ n ih =>
    rw [List.replicate_succ, utf16Length_ascii_cons hb, ih]
    omega

/-- Per-payload logic: payloads whose decoded text is longer than
MAX_MESSAGE_SIZE (the source checks messageText.length, the UTF-16
code-unit count of the UTF-8 decode) get the -32600 error and are not
dispatched; otherwise JSON parse failure drops the message silently and
success dispatches it to onMessage. -/
def processPayload {α : Type} (parseJson : List Nat → Option α) (payload : List Nat) :
    ConnAction α :=
  if utf16Length payload > MAX_MESSAGE_SIZE then .send tooLargeMessage
  else
    match parseJson payload with
    | some m => .dispatch m
    | none => .dropMalformed

/-- The whole data callback: buffer-ceiling check (none models
cleanupConnection on overflow), then frame decode and per-payload
processing in order. -/
def handleDataEvent {α : Type} (parseJson : List Nat → Option α)
    (buffer data : List Nat) : Option (List (ConnAction α) × List Nat) :=
  if buffer.length + data.length > MAX_BUFFER_SIZE then none
  else
    some (((parseWebSocketFrames data buffer).1).map (processPayload parseJson),
      (parseWebSocketFrames data buffer).2)

/-! ### Helper lemmas for the upgrade gate and dispatcher -/

theorem upgrade_at_capacity (acceptHash : String → String) (st : ServerState)
    (req : UpgradeReq) (sock : Nat)
    (hcard : MAX_CONNECTIONS ≤ st.connections.length)
    (hkey : headerTruthy req.secWebSocketKey = true)
    (hauth : req.authHeader = some st.authToken)
    (htok : st.authToken ≠ "") :
    handleWebSocketUpgrade acceptHash st req sock = ([.serviceUnavailable], st) := by
  unfold handleWebSocketUpgrade
  rw [if_neg (by rw [hkey]; simp), if_neg (by rw [hauth]; simp [headerTruthy, htok]),
    if_neg (by rw [hauth]; simp), if_pos hcard]

theorem mem_addConnection (st : ServerState) (sock : Nat) :
    sock ∈ (addConnection st sock).connections := by
  unfold addConnection
  split_ifs with h
  · exact h
  · exact List.mem_cons_self sock st.connections

theorem handleFileRead_ok {vault : String → Option String} {msg : InMessage} {m0 : SentMessage}
    (h : handleFileRead vault msg = Except.ok m0) : m0.error = none ∧ m0.id = msg.id := by
  unfold handleFileRead at h
  by_cases h1 : pathTruthy msg.paramsPath = false
  · rw [if_pos h1] at h
    exact Except.noConfusion h
  · rw [if_neg h1] at h
    split at h
    · exact Except.noConfusion h
    · injection h with h
      subst h
      exact ⟨rfl, rfl⟩

theorem handleWorkspaceSelection_ok {activeView : Option (String × Nat × Nat)}
    {msg : InMessage} {m0 : SentMessage}
    (h : handleWorkspaceSelection activeView msg = Except.ok m0) :
    m0.error = none ∧ m0.id = msg.id := by
  unfold handleWorkspaceSelection at h
  split at h
  · exact Except.noConfusion h
  · injection h with h
    subst h
    exact ⟨rfl, rfl⟩

theorem method_of_truthy {msg : InMessage} (hmt : methodTruthy msg.method = true)
    {s : String} (heq : msg.method.getD "" = s) : msg.method = some s := by
  cases hm : msg.method with
  | none => rw [hm] at hmt; simp [methodTruthy] at hmt
  | some t =>
    rw [hm] at heq
    simp only [Option.getD_some] at heq
    rw [heq]

theorem dispatchCore_ok_errors {vault : String → Option String}
    {activeView : Option (String × Nat × Nat)} {msg : InMessage} {sent : List SentMessage}
    (h : dispatchCore vault activeView msg = Except.ok sent) :
    ∀ m ∈ sent, m.error.isSome = true → m = methodNotFoundMsg msg.id := by
  unfold dispatchCore at h
  by_cases hmt : methodTruthy msg.method = false
  · rw [if_pos hmt] at h
    injection h with h
    subst h
    intro m hm
    simp at hm
  · rw [if_neg hmt] at h
    split at h
    · injection h with h
      subst h
      intro m hm herr
      simp only [List.mem_singleton] at hm
      subst hm
      simp at herr
    · injection h with h
      subst h
      intro m hm
      simp at hm
    · rename_i heq
      cases hfr : handleFileRead vault msg with
      | error e => rw [hfr] at h; exact Except.noConfusion h
      | ok m0 =>
        rw [hfr] at h
        simp only [Except.map] at h
        injection h with h
        subst h
        intro m hm herr
        simp only [List.mem_singleton] at hm
        subst hm
        rw [(handleFileRead_ok hfr).1] at herr
        simp at herr
    · rename_i heq
      cases hws : handleWorkspaceSelection activeView msg with
      | error e => rw [hws] at h; exact Except.noConfusion h
      | ok m0 =>
        rw [hws] at h
        simp only [Except.map] at h
        injection h with h
        subst h
        intro m hm herr
        simp only [List.mem_singleton] at hm
        subst hm
        rw [(handleWorkspaceSelection_ok hws).1] at herr
        simp at herr
    · injection h with h
      subst h
      intro m hm herr
      simp only [List.mem_singleton] at hm
      subst hm
      simp at herr
    · injection h with h
      subst h
      intro m hm _
      simp only [List.mem_singleton] at hm
      exact hm

theorem dispatchCore_ok_sent {vault : String → Option String}
    {activeView : Option (String × Nat × Nat)} {msg : InMessage} {sent : List SentMessage}
    (h : dispatchCore vault activeView msg = Except.ok sent)
    (hmt : methodTruthy msg.method = true) (hni : msg.method ≠ some "initialized") :
    ∃ m, sent = [m] ∧ m.id = msg.id := by
  unfold dispatchCore at h
  rw [if_neg (by rw [hmt]; simp)] at h
  split at h
  · injection h with h
    subst h
    exact ⟨_, rfl, rfl⟩
  · rename_i heq
    exact absurd (method_of_truthy hmt heq) hni
  · rename_i heq
    cases hfr : handleFileRead vault msg with
    | error e => rw [hfr] at h; exact Except.noConfusion h
    | ok m0 =>
      rw [hfr] at h
      simp only [Except.map] at h
      injection h with h
      subst h
      exact ⟨m0, rfl, (handleFileRead_ok hfr).2⟩
  · rename_i heq
    cases hws : handleWorkspaceSelection activeView msg with
    | error e => rw [hws] at h; exact Except.noConfusion h
    | ok m0 =>
      rw [hws] at h
      simp only [Except.map] at h
      injection h with h
      subst h
      exact ⟨m0, rfl, (handleWorkspaceSelection_ok hws).2⟩
  · injection h with h
    subst h
    exact ⟨_, rfl, rfl⟩
  · injection h with h
    subst h
    exact ⟨methodNotFoundMsg msg.id, rfl, rfl⟩

/-! ### Claim theorems -/

/-- C1: framing round-trip.  For every payload byte sequence (the UTF-8
bytes of the string; Buffer lengths are below 2^64), decoding the frame
built by createWebSocketFrame against an empty existing buffer yields
exactly that one payload and an empty remaining buffer. -/
theorem claim_frame_roundtrip (p : List Nat) (h64 : p.length < 18446744073709551616) :
    parseWebSocketFrames (createWebSocketFrame p) [] = ([p], []) := by
  unfold parseWebSocketFrames
  rw [List.nil_append]
  have h := parseLoop_create p [] h64
  rw [List.append_nil, parseLoop_nil] at h
  rw [h]

theorem claim_frame_roundtrip_witness :
    parseWebSocketFrames (createWebSocketFrame [104, 105]) [] = ([[104, 105]], []) :=
  claim_frame_roundtrip [104, 105] (by decide)

/-- C2: connection ceiling.  Every state reachable by upgrade/close/error
events holds at most MAX_CONNECTIONS = 10 connections, and at a full
registry a further authenticated upgrade (key present, header equal to
the nonempty credential) writes exactly the 503 service-unavailable
response — no 101 handshake — and leaves the connection set unchanged. -/
theorem claim_connection_ceiling (acceptHash : String → String) (tok : String)
    (evs : List ServerEvent) :
    (run acceptHash tok evs).connections.length ≤ MAX_CONNECTIONS ∧
    (∀ req sock, (run acceptHash tok evs).connections.length = MAX_CONNECTIONS →
      headerTruthy req.secWebSocketKey = true → req.authHeader = some tok → tok ≠ "" →
      handleWebSocketUpgrade acceptHash (run acceptHash tok evs) req sock
        = ([HttpResponse.serviceUnavailable], run acceptHash tok evs) ∧
      (handleWebSocketUpgrade acceptHash (run acceptHash tok evs) req sock).2.connections
        = (run acceptHash tok evs).connections) := by
  refine ⟨run_card_le acceptHash tok evs, ?_⟩
  intro req sock hcard hkey hauth htok
  have htok' : (run acceptHash tok evs).authToken = tok := run_authToken acceptHash tok evs
  have h := upgrade_at_capacity acceptHash (run acceptHash tok evs) req sock
    (by omega) hkey (by rw [htok']; exact hauth) (by rw [htok']; exact htok)
  exact ⟨h, by rw [h]⟩

/-- Ten authenticated upgrades for distinct sockets. -/
def ceilingEvents : List ServerEvent :=
  [.upgrade ⟨some "k", some "t"⟩ 0, .upgrade ⟨some "k", some "t"⟩ 1,
   .upgrade ⟨some "k", some "t"⟩ 2, .upgrade ⟨some "k", some "t"⟩ 3,
   .upgrade ⟨some "k", some "t"⟩ 4, .upgrade ⟨some "k", some "t"⟩ 5,
   .upgrade ⟨some "k", some "t"⟩ 6, .upgrade ⟨some "k", some "t"⟩ 7,
   .upgrade ⟨some "k", some "t"⟩ 8, .upgrade ⟨some "k", some "t"⟩ 9]

theorem claim_connection_ceiling_witness :
    (run (fun _ => "") "t" ceilingEvents).connections.length = MAX_CONNECTIONS ∧
    handleWebSocketUpgrade (fun _ => "") (run (fun _ => "") "t" ceilingEvents)
        ⟨some "k", some "t"⟩ 42
      = ([HttpResponse.serviceUnavailable], run (fun _ => "") "t" ceilingEvents) := by
  have h := claim_connection_ceiling (fun _ => "") "t" ceilingEvents
  exact ⟨by decide, (h.2 ⟨some "k", some "t"⟩ 42 (by decide) (by decide) rfl (by decide)).1⟩

/-- A full registry with the credential "tok". -/
def st10cap : ServerState := { connections := [0, 1, 2, 3, 4, 5, 6, 7, 8, 9], authToken := "tok" }

/-- C3 counterexample: at a full registry, a request whose authorization
header equals the credential and whose sec-websocket-key is present is
answered with 503, not the 101 handshake, and the socket is not added —
so the claim "header equals credential (and key present) implies 101 and
socket added" is false as stated. -/
theorem claim_auth_counterexample :
    handleWebSocketUpgrade (fun _ => "") st10cap ⟨some "key", some "tok"⟩ 42
      = ([HttpResponse.serviceUnavailable], st10cap) ∧
    42 ∉ st10cap.connections ∧
    (∀ k, (handleWebSocketUpgrade (fun _ => "") st10cap ⟨some "key", some "tok"⟩ 42).1
      ≠ [HttpResponse.switchingProtocols k]) := by
  have h : handleWebSocketUpgrade (fun _ => "") st10cap ⟨some "key", some "tok"⟩ 42
      = ([HttpResponse.serviceUnavailable], st10cap) := by decide
  refine ⟨h, by decide, ?_⟩
  intro k hk
  rw [h] at hk
  simp at hk

/-- C3 (amended): for requests whose sec-websocket-key is present and
nonempty: a missing authorization header gives the missing-header 401 and
an unchanged state; a present-but-wrong header gives one of the two 401
responses and an unchanged state; a header equal to the nonempty
credential, when the registry is below the ceiling, gives the 101
handshake and adds the socket.  Moreover every socket of any reachable
registry entered through an authenticated upgrade event. -/
theorem claim_auth_enforcement (acceptHash : String → String) (st : ServerState)
    (req : UpgradeReq) (sock : Nat) :
    (headerTruthy req.secWebSocketKey = true →
      ((req.authHeader = none →
        handleWebSocketUpgrade acceptHash st req sock
          = ([HttpResponse.unauthorizedMissing], st)) ∧
       (∀ a, req.authHeader = some a → a ≠ st.authToken →
        handleWebSocketUpgrade acceptHash st req sock
          = ([HttpResponse.unauthorizedMissing], st) ∨
        handleWebSocketUpgrade acceptHash st req sock
          = ([HttpResponse.unauthorizedInvalid], st)) ∧
       (req.authHeader = some st.authToken → st.authToken ≠ "" →
        st.connections.length < MAX_CONNECTIONS →
        handleWebSocketUpgrade acceptHash st req sock
          = ([HttpResponse.switchingProtocols (acceptHash (req.secWebSocketKey.getD ""))],
             addConnection st sock) ∧
        sock ∈ (handleWebSocketUpgrade acceptHash st req sock).2.connections))) ∧
    (∀ tok evs s, s ∈ (run acceptHash tok evs).connections →
      ∃ ev ∈ evs, AuthedUpgrade tok ev s) := by
  constructor
  · intro hkey
    refine ⟨?_, ?_, ?_⟩
    · intro hnone
      unfold handleWebSocketUpgrade
      rw [if_neg (by rw [hkey]; simp), if_pos (by rw [hnone]; rfl)]
    · intro a ha hne
      by_cases hempty : a = ""
      · left
        unfold handleWebSocketUpgrade
        rw [if_neg (by rw [hkey]; simp), if_pos (by rw [ha, hempty]; rfl)]
      · right
        unfold handleWebSocketUpgrade
        rw [if_neg (by rw [hkey]; simp),
          if_neg (by rw [ha]; simp [headerTruthy, hempty]),
          if_pos (by rw [ha]; simpa using hne)]
    · intro hauth htok hcard
      have heq : handleWebSocketUpgrade acceptHash st req sock
          = ([HttpResponse.switchingProtocols (acceptHash (req.secWebSocketKey.getD ""))],
             addConnection st sock) := by
        unfold handleWebSocketUpgrade
        rw [if_neg (by rw [hkey]; simp), if_neg (by rw [hauth]; simp [headerTruthy, htok]),
          if_neg (by rw [hauth]; simp), if_neg (by omega)]
      exact ⟨heq, by rw [heq]; exact mem_addConnection st sock⟩
  · intro tok evs s hs
    exact run_mem_authed acceptHash tok evs s hs

theorem claim_auth_enforcement_witness :
    handleWebSocketUpgrade (fun _ => "") (initialState "tok") ⟨some "k", none⟩ 0
      = ([HttpResponse.unauthorizedMissing], initialState "tok") ∧
    (handleWebSocketUpgrade (fun _ => "") (initialState "tok") ⟨some "k", some "bad"⟩ 0
      = ([HttpResponse.unauthorizedMissing], initialState "tok") ∨
     handleWebSocketUpgrade (fun _ => "") (initialState "tok") ⟨some "k", some "bad"⟩ 0
      = ([HttpResponse.unauthorizedInvalid], initialState "tok")) ∧
    handleWebSocketUpgrade (fun _ => "") (initialState "tok") ⟨some "k", some "tok"⟩ 5
      = ([HttpResponse.switchingProtocols ""], addConnection (initialState "tok") 5) ∧
    (∃ ev ∈ [ServerEvent.upgrade ⟨some "k", some "tok"⟩ 3], AuthedUpgrade "tok" ev 3) := by
  have h1 := claim_auth_enforcement (fun _ => "") (initialState "tok") ⟨some "k", none⟩ 0
  have h2 := claim_auth_enforcement (fun _ => "") (initialState "tok") ⟨some "k", some "bad"⟩ 0
  have h3 := claim_auth_enforcement (fun _ => "") (initialState "tok") ⟨some "k", some "tok"⟩ 5
  have h4 := claim_auth_enforcement (fun _ => "") (initialState "tok") ⟨some "k", some "tok"⟩ 0
  exact ⟨(h1.1 (by decide)).1 rfl, (h2.1 (by decide)).2.1 "bad" rfl (by decide),
    ((h3.1 (by decide)).2.2 rfl (by decide) (by decide)).1,
    h4.2 "tok" [ServerEvent.upgrade ⟨some "k", some "tok"⟩ 3] 3 (by decide)⟩

/-- C4: oversized messages.  A decoded payload whose length — measured
as the source measures it, messageText.length, the UTF-16 code-unit
count of its UTF-8 decode — exceeds MAX_MESSAGE_SIZE makes the read
handler send the -32600 "Message too large" response and never dispatch
that payload to onMessage; the data callback applies this per-payload
logic to every decoded payload. -/
theorem claim_oversized_rejected {α : Type} (parseJson : List Nat → Option α)
    (payload : List Nat) (h : utf16Length payload > MAX_MESSAGE_SIZE) :
    processPayload parseJson payload = ConnAction.send tooLargeMessage ∧
    tooLargeMessage.error = some { code := -32600, message := "Message too large" } ∧
    (∀ m : α, processPayload parseJson payload ≠ ConnAction.dispatch m) ∧
    (∀ buffer data : List Nat, buffer.length + data.length ≤ MAX_BUFFER_SIZE →
      handleDataEvent parseJson buffer data
        = some (((parseWebSocketFrames data buffer).1).map (processPayload parseJson),
            (parseWebSocketFrames data buffer).2)) := by
  have hp : processPayload parseJson payload = ConnAction.send tooLargeMessage := by
    unfold processPayload
    rw [if_pos h]
  refine ⟨hp, rfl, ?_, ?_⟩
  · intro m hm
    rw [hp] at hm
    exact ConnAction.noConfusion hm
  · intro buffer data hb
    unfold handleDataEvent
    rw [if_neg (by omega)]

theorem claim_oversized_rejected_witness :
    processPayload (fun _ => (none : Option Unit)) (List.replicate 10485761 0)
      = ConnAction.send tooLargeMessage ∧
    (∀ m : Unit, processPayload (fun _ => (none : Option Unit)) (List.replicate 10485761 0)
      ≠ ConnAction.dispatch m) := by
  have h := claim_oversized_rejected (fun _ => (none : Option Unit))
    (List.replicate 10485761 0)
    (by rw [utf16Length_replicate (by decide : (0 : Nat) < 128) 10485761]; decide)
  exact ⟨h.1, h.2.2.1⟩

/-- C5 counterexample: the id-less message with unknown method "bogus" is
a notification, yet the dispatcher sends it the -32601 method-not-found
error response — refuting "the dispatcher never sends any error response
to a message without an id". -/
theorem claim_notification_counterexample :
    handleMessage (fun _ => none) none
        { method := some "bogus", id := none, paramsPath := none }
      = [methodNotFoundMsg none] ∧
    (methodNotFoundMsg none).error = some { code := -32601, message := "Method not found" } ∧
    ({ method := some "bogus", id := none, paramsPath := none } : InMessage).id = none := by
  exact ⟨rfl, rfl, rfl⟩

/-- C5 (amended): the only error response an id-less message can receive
is the method-not-found error for unrecognized methods; and a handler
that throws produces the -32603 internal error carrying the thrown
message if and only if the message id is truthy (present and not 0, the
empty string, or null). -/
theorem claim_notification_errors (vault : String → Option String)
    (activeView : Option (String × Nat × Nat)) (msg : InMessage) :
    (msg.id = none → ∀ m ∈ handleMessage vault activeView msg, m.error.isSome = true →
      m = methodNotFoundMsg none) ∧
    (∀ e, dispatchCore vault activeView msg = Except.error e →
      handleMessage vault activeView msg
        = if idTruthy msg.id = true then [internalErrorMsg msg.id e] else []) := by
  constructor
  · intro hid m hm herr
    cases hdc : dispatchCore vault activeView msg with
    | error e =>
      unfold handleMessage at hm
      rw [hdc, hid] at hm
      simp [idTruthy] at hm
    | ok sent =>
      unfold handleMessage at hm
      rw [hdc] at hm
      have := dispatchCore_ok_errors hdc m hm herr
      rw [hid] at this
      exact this
  · intro e hdc
    unfold handleMessage
    rw [hdc]

theorem claim_notification_errors_witness :
    (∀ m ∈ handleMessage (fun _ => none) none
        { method := some "initialize", id := none, paramsPath := none },
      m.error.isSome = true → m = methodNotFoundMsg none) ∧
    handleMessage (fun _ => none) none
        { method := some "files/read", id := some (JsonId.num 3), paramsPath := none }
      = [internalErrorMsg (some (JsonId.num 3)) "File path is required"] := by
  have h1 := claim_notification_errors (fun _ => none) none
    { method := some "initialize", id := none, paramsPath := none }
  have h2 := claim_notification_errors (fun _ => none) none
    { method := some "files/read", id := some (JsonId.num 3), paramsPath := none }
  refine ⟨h1.1 rfl, ?_⟩
  have := h2.2 "File path is required" rfl
  rw [this]
  rfl

/-- C6 counterexample: the message with method "initialized" and id 1 is
a request by the claim (method and id both present), yet the dispatcher
sends zero responses — refuting "exactly one response for every message
carrying both a method and an id". -/
theorem claim_request_counterexample :
    handleMessage (fun _ => none) none
        { method := some "initialized", id := some (JsonId.num 1), paramsPath := none }
      = [] ∧
    idTruthy (some (JsonId.num 1)) = true := by
  exact ⟨rfl, rfl⟩

/-- C6 (amended): every message carrying a truthy method other than
"initialized" and a truthy id receives exactly one response, and that
response echoes the request id — across unknown methods and handler
precondition failures. -/
theorem claim_request_single_response (vault : String → Option String)
    (activeView : Option (String × Nat × Nat)) (msg : InMessage)
    (hmt : methodTruthy msg.method = true)
    (hni : msg.method ≠ some "initialized")
    (hid : idTruthy msg.id = true) :
    ∃ m, handleMessage vault activeView msg = [m] ∧ m.id = msg.id := by
  cases hdc : dispatchCore vault activeView msg with
  | error e =>
    refine ⟨internalErrorMsg msg.id e, ?_, rfl⟩
    unfold handleMessage
    rw [hdc]
    show (if idTruthy msg.id = true then [internalErrorMsg msg.id e] else [])
      = [internalErrorMsg msg.id e]
    rw [if_pos hid]
  | ok sent =>
    obtain ⟨m, hm, hmid⟩ := dispatchCore_ok_sent hdc hmt hni
    refine ⟨m, ?_, hmid⟩
    unfold handleMessage
    rw [hdc, hm]

theorem claim_request_single_response_witness :
    ∃ m, handleMessage (fun _ => none) none
        { method := some "bogus", id := some (JsonId.num 2), paramsPath := none } = [m] ∧
      m.id = some (JsonId.num 2) :=
  claim_request_single_response (fun _ => none) none
    { method := some "bogus", id := some (JsonId.num 2), paramsPath := none }
    (by decide) (by decide) (by decide)

/-- C7: incremental feed.  Splitting one encoded frame into two chunks
(second chunk nonempty, so the first is a proper prefix): feeding the
first chunk with an empty existing buffer yields no payloads and exactly
that chunk as the remainder, and feeding the second chunk with that
remainder as the existing buffer equals decoding the whole frame at
once — the partial frame is kept intact, never partially consumed. -/
theorem claim_incremental_feed (p : List Nat) (h64 : p.length < 18446744073709551616)
    (k : Nat) (hk : k < (createWebSocketFrame p).length) :
    parseWebSocketFrames ((createWebSocketFrame p).take k) []
      = ([], (createWebSocketFrame p).take k) ∧
    parseWebSocketFrames ((createWebSocketFrame p).drop k) ((createWebSocketFrame p).take k)
      = parseWebSocketFrames (createWebSocketFrame p) [] := by
  constructor
  · unfold parseWebSocketFrames
    rw [List.nil_append]
    exact parseLoop_take_create p h64 k hk
  · unfold parseWebSocketFrames
    rw [List.take_append_drop, List.nil_append]

theorem claim_incremental_feed_witness :
    parseWebSocketFrames ((createWebSocketFrame [97]).take 1) []
      = ([], (createWebSocketFrame [97]).take 1) ∧
    parseWebSocketFrames ((createWebSocketFrame [97]).drop 1)
        ((createWebSocketFrame [97]).take 1)
      = parseWebSocketFrames (createWebSocketFrame [97]) [] :=
  claim_incremental_feed [97] (by decide) 1 (by decide)

/-- C8: multi-frame batching.  Decoding the concatenation of two encoded
frames in one call yields both payloads in send order with an empty
remaining buffer. -/
theorem claim_two_frame_batch (p q : List Nat)
    (hp : p.length < 18446744073709551616) (hq : q.length < 18446744073709551616) :
    parseWebSocketFrames (createWebSocketFrame p ++ createWebSocketFrame q) []
      = ([p, q], []) := by
  unfold parseWebSocketFrames
  rw [List.nil_append]
  have h2 := parseLoop_create q [] hq
  rw [List.append_nil, parseLoop_nil] at h2
  rw [parseLoop_create p (createWebSocketFrame q) hp, h2]

theorem claim_two_frame_batch_witness :
    parseWebSocketFrames (createWebSocketFrame [104] ++ createWebSocketFrame [105]) []
      = ([[104], [105]], []) :=
  claim_two_frame_batch [104] [105] (by decide) (by decide)

/-- C9: non-text frames are skipped whole.  For every well-formed wire
frame whose opcode (low nibble of byte 0) is not 1, decoding the frame
followed by any rest equals decoding the rest alone: the cursor advances
past header, extended length, mask key and payload without surfacing a
payload, and later frames still decode. -/
theorem claim_nontext_skipped (f : RawFrame) (rest : List Nat) (hf : f.WF)
    (hop : f.b0 &&& 15 ≠ 1) :
    parseWebSocketFrames (serializeRawFrame f ++ rest) []
      = parseWebSocketFrames rest [] := by
  unfold parseWebSocketFrames
  rw [List.nil_append, List.nil_append, parseLoop_serialize f hf rest, if_neg hop]

theorem claim_nontext_skipped_witness :
    parseWebSocketFrames
        (serializeRawFrame ⟨137, .direct, some [1, 2, 3, 4], [5, 6]⟩ ++ [129, 1, 97]) []
      = parseWebSocketFrames [129, 1, 97] [] :=
  claim_nontext_skipped ⟨137, .direct, some [1, 2, 3, 4], [5, 6]⟩ [129, 1, 97]
    ⟨by decide, by decide, by decide⟩ (by decide)

/-- C10: parse provenance.  parseWebSocketFrames is a pure function of the
concatenation existingBuffer ++ data; its remainder is a contiguous
suffix of that concatenation (the bytes from some position n on), and its
payloads are exactly the contents of an in-order list of pairwise
disjoint regions lying before that suffix, each optionally unmasked — no
input byte is duplicated, reordered or fabricated. -/
theorem claim_parse_provenance (data existingBuffer : List Nat) :
    parseWebSocketFrames data existingBuffer
      = parseWebSocketFrames (existingBuffer ++ data) [] ∧
    ∃ n regs, n ≤ (existingBuffer ++ data).length ∧
      (parseWebSocketFrames data existingBuffer).2 = (existingBuffer ++ data).drop n ∧
      RegionsOk 0 n regs ∧
      (parseWebSocketFrames data existingBuffer).1
        = regs.map (regionPayload (existingBuffer ++ data)) := by
  constructor
  · unfold parseWebSocketFrames
    rw [List.nil_append]
  · exact parseLoop_regions_aux (existingBuffer ++ data).length (existingBuffer ++ data) le_rfl

end ClaudeCodeBridge
